import Mathlib

/-!
Verification development for the portrait-studio booking backend.

The definitions below are a shallow embedding of the booking controller
(`createBooking`, `getBookings`, `getBookingById`, `updateBooking`,
`allocateStudioNumber`) over an explicit store.  Database ids (Prisma string
uuids) are abstracted as `Nat`; Prisma calls (`findUnique`, `findMany` with a
`where` clause and `orderBy`, `count`, `update`, `create`) are modelled as
list operations on the store; JavaScript string truthiness (`null`, `""`
falsy) is modelled explicitly via `strTruthy`; `localeCompare` on the
zero-padded ISO date / `HH:MM` strings is modelled as the lexicographic
string order.
-/

inductive Role where
  | ADMIN
  | SALES_PERSON
  | CUSTOMER_SERVICE
  | STUDIO_ROLE
  | SALES
deriving DecidableEq, Repr

inductive BookingStatus where
  | BOOKED
  | CONFIRMED
  | TBC
  | CANCELLED
  | NO_ANSWER
  | WLMK
  | VIDEO_CALL
deriving DecidableEq, Repr

structure Booking where
  id : Nat
  customerName : String
  phoneNumber : String
  emergencyPhoneNumber : Option String
  photoshootType : String
  sessionDate : Option String
  sessionTime : Option String
  specialRequestDate : Option String
  specialRequestTime : Option String
  collectionDate : Option String
  collectionTime : Option String
  paymentMethod : String
  status : BookingStatus
  notes : Option String
  studioNotes : Option String
  cancellationReason : Option String
  locationId : Option Nat
  salesPersonId : Option Nat
  studioNumber : Option Nat
deriving DecidableEq, Repr

structure Location where
  id : Nat
  name : String
  code : Option String
deriving DecidableEq, Repr

structure StoreUser where
  id : Nat
  name : String
  email : Option String
deriving DecidableEq, Repr

structure Store where
  bookings : List Booking
  locations : List Location
  users : List StoreUser
deriving DecidableEq, Repr

/-- The authenticated caller (`req.user`), as supplied by the auth middleware. -/
structure AuthUser where
  id : Nat
  role : Role
deriving DecidableEq, Repr

/-- JavaScript truthiness of a nullable string: `null` and `""` are falsy. -/
def strTruthy : Option String → Bool
  | none => false
  | some s => decide (s ≠ "")

/-- JavaScript `x || y` on nullable strings: first operand if truthy, else second. -/
def jsOr (x y : Option String) : Option String := if strTruthy x then x else y

/-- JavaScript `x || null` on a nullable string (normalises `""` to `null`). -/
def jsOrNull (x : Option String) : Option String := if strTruthy x then x else none

/-- `value.replace(/\D/g, "")`: keep only the decimal digits. -/
def stripNonDigits (s : String) : String := ⟨s.data.filter Char.isDigit⟩

deriving instance DecidableEq for Except

/-! ### Studio-number allocator (`allocateStudioNumber`) -/

inductive AllocError where
  | bookingNotFound
  | noLocation
  | alreadyAllocated
  | locationNotFound
deriving DecidableEq, Repr

/-- HTTP status code attached by `errorResponse` to each allocator failure. -/
def AllocError.statusCode : AllocError → Nat
  | .bookingNotFound => 404
  | .noLocation => 400
  | .alreadyAllocated => 400
  | .locationNotFound => 404

/-- The `studioNumber` values of the bookings at a location that already have
one (the rows matched by `where { locationId, studioNumber: { not: null } }`),
in store order. -/
def locStudioNumbersRaw (s : Store) (lid : Nat) : List Nat :=
  (s.bookings.filter
      (fun b => decide (b.locationId = some lid) && b.studioNumber.isSome)).filterMap
    (fun b => b.studioNumber)

/-- The same values ordered ascending (`orderBy: { studioNumber: "asc" }`).
The database's ascending sort is modelled as a stable structural sort. -/
def locStudioNumbers (s : Store) (lid : Nat) : List Nat :=
  List.insertionSort (fun a b => a ≤ b) (locStudioNumbersRaw s lid)

/-- The controller's gap-scan loop: starting from `expected`, walk the
ascending list; return the first expected value the list fails to provide.
`gapScanAux nums 1` is exactly the loop at lines 678-691 of the controller
(`nextStudioNumber = 1`, then for each index `i` compare against `i + 1`,
breaking on the first mismatch, otherwise ending at `count + 1`). -/
def gapScanAux : List Nat → Nat → Nat
  | [], expected => expected
  | n :: rest, expected => if n ≠ expected then expected else gapScanAux rest (expected + 1)

/-- The defensive re-query (`findFirst`) for another booking at the location
already holding the candidate number, excluding the booking being allocated. -/
def conflictCheck (s : Store) (lid : Nat) (n : Nat) (id : Nat) : Option Booking :=
  s.bookings.find?
    (fun b => decide (b.locationId = some lid) && decide (b.studioNumber = some n)
      && decide (b.id ≠ id))

/-- The number the allocator finally writes: the gap-scan candidate, unless
the defensive re-query finds a conflicting booking, in which case the
controller falls back to `allStudioNumbers[allStudioNumbers.length - 1] + 1`.
On an empty array that JavaScript fallback would read `undefined` and yield
`NaN`; that case is modelled by the `none` branch returning `0`, and is dead
for every store (`conflictCheck_numbers_ne_nil`). -/
def allocNumber (s : Store) (lid : Nat) (id : Nat) : Nat :=
  match conflictCheck s lid (gapScanAux (locStudioNumbers s lid) 1) id with
  | some _ =>
    match (locStudioNumbers s lid).getLast? with
    | some m => m + 1
    | none => 0
  | none => gapScanAux (locStudioNumbers s lid) 1

/-- The single `prisma.booking.update` call of the allocator: write the
studio number and set the status to CONFIRMED on the chosen booking. -/
def applyAllocUpdate (s : Store) (id n : Nat) : Store :=
  { s with
      bookings := s.bookings.map (fun b2 =>
        if b2.id = id then { b2 with studioNumber := some n, status := .CONFIRMED }
        else b2) }

/-- `allocateStudioNumber`.  On failure the pair carries the store unchanged
(the controller returns through `errorResponse` before any `update` call). -/
def allocateStudioNumber (s : Store) (id : Nat) : Except AllocError Nat × Store :=
  match s.bookings.find? (fun b => decide (b.id = id)) with
  | none => (.error .bookingNotFound, s)
  | some b =>
    match b.locationId with
    | none => (.error .noLocation, s)
    | some lid =>
      if b.studioNumber.isSome then (.error .alreadyAllocated, s)
      else
        match s.locations.find? (fun l => decide (l.id = lid)) with
        | none => (.error .locationNotFound, s)
        | some _loc =>
          (.ok (allocNumber s lid id), applyAllocUpdate s id (allocNumber s lid id))

/-! ### Booking list assembler (`getBookings`) -/

/-- The parsed query string of a list request.  `page` and `limit` model the
already-parsed `pageNumber` / `pageSize` (`parseInt(page) || 1`,
`parseInt(limit) || 20`); `status` models the upper-cased status filter. -/
structure ListQuery where
  locationId : Option Nat
  status : Option BookingStatus
  salesPersonId : Option Nat
  includeAllSalesPersons : Bool
  hasCollectionDate : Bool
  page : Nat
  limit : Nat
deriving DecidableEq, Repr

/-- `includeAllSalesPersons === "true" && locationId`. -/
def shouldIncludeAllSalesPersons (q : ListQuery) : Bool :=
  q.includeAllSalesPersons && q.locationId.isSome

/-- The `salesPersonId` equality constraint placed into `where`, if any:
ADMIN may filter by an explicit sales person; a SALES_PERSON is pinned to
their own id unless the include-all bypass applies; other roles are not
constrained. -/
def whereSalesFilter (u : AuthUser) (q : ListQuery) : Option Nat :=
  match u.role with
  | .ADMIN => q.salesPersonId
  | .SALES_PERSON => if shouldIncludeAllSalesPersons q then none else some u.id
  | _ => none

/-- The `where` clause built by `getBookings` (role filter, location, status,
and the `hasCollectionDate` not-null constraints), as a row predicate. -/
def wherePred (u : AuthUser) (q : ListQuery) (b : Booking) : Bool :=
  (match whereSalesFilter u q with
   | none => true
   | some sid => decide (b.salesPersonId = some sid)) &&
  (match q.locationId with
   | none => true
   | some lid => decide (b.locationId = some lid)) &&
  (match q.status with
   | none => true
   | some st => decide (b.status = st)) &&
  (!q.hasCollectionDate || (b.collectionDate.isSome && b.collectionTime.isSome))

/-- `localeCompare` on the zero-padded date/time strings, modelled as the
lexicographic order on their character lists. -/
def compareStr (a b : String) : Ordering :=
  if a.data < b.data then .lt else if b.data < a.data then .gt else .eq

/-- The comparator body of the in-memory sort, on the selected date/time
values: falsy dates compare equal to each other and after truthy ones;
truthy dates compare as strings; on equal dates the times are compared the
same way. -/
def cmpKey (dA tA dB tB : Option String) : Ordering :=
  if !strTruthy dA && !strTruthy dB then .eq
  else if !strTruthy dA then .gt
  else if !strTruthy dB then .lt
  else if dA.getD "" ≠ dB.getD "" then compareStr (dA.getD "") (dB.getD "")
  else if !strTruthy tA && !strTruthy tB then .eq
  else if !strTruthy tA then .gt
  else if !strTruthy tB then .lt
  else compareStr (tA.getD "") (tB.getD "")

/-- The date key the sort uses: collection date on the Sales tab, otherwise
`specialRequestDate || sessionDate`. -/
def sortDate (hasCol : Bool) (b : Booking) : Option String :=
  if hasCol then b.collectionDate else jsOr b.specialRequestDate b.sessionDate

/-- The time key: collection time, otherwise
`specialRequestTime || sessionTime`. -/
def sortTime (hasCol : Bool) (b : Booking) : Option String :=
  if hasCol then b.collectionTime else jsOr b.specialRequestTime b.sessionTime

def bookingCmp (hasCol : Bool) (a b : Booking) : Ordering :=
  cmpKey (sortDate hasCol a) (sortTime hasCol a) (sortDate hasCol b) (sortTime hasCol b)

/-- `a` sorts no later than `b`: the comparator does not return a positive
value.  The ECMAScript stable `Array.prototype.sort` is modelled as a stable
insertion sort over this relation. -/
def bookingLe (hasCol : Bool) (a b : Booking) : Prop := bookingCmp hasCol a b ≠ .gt

instance (hasCol : Bool) : DecidableRel (bookingLe hasCol) := fun a b => by
  unfold bookingLe
  infer_instance

def sortBookings (hasCol : Bool) (l : List Booking) : List Booking :=
  List.insertionSort (bookingLe hasCol) l

structure LocationRef where
  id : Nat
  name : String
  code : Option String
deriving DecidableEq, Repr

structure SalesPersonRef where
  id : Nat
  name : String
  email : Option String
deriving DecidableEq, Repr

structure EnrichedBooking where
  booking : Booking
  location : Option LocationRef
  salesPerson : Option SalesPersonRef
deriving DecidableEq, Repr

/-- Point lookups resolving `locationId` and `salesPersonId` for a row; a
missing reference resolves to `null`. -/
def enrich (s : Store) (b : Booking) : EnrichedBooking :=
  { booking := b
    location :=
      match b.locationId with
      | none => none
      | some lid =>
        match s.locations.find? (fun l => decide (l.id = lid)) with
        | none => none
        | some l => some { id := l.id, name := l.name, code := l.code }
    salesPerson :=
      match b.salesPersonId with
      | none => none
      | some sid =>
        match s.users.find? (fun u2 => decide (u2.id = sid)) with
        | none => none
        | some u2 => some { id := u2.id, name := u2.name, email := u2.email } }

structure Pagination where
  total : Nat
  page : Nat
  limit : Nat
  totalPages : Nat
deriving DecidableEq, Repr

structure Summary where
  total : Nat
  confirmed : Nat
  booked : Nat
  tbc : Nat
  cancelled : Nat
  noAnswer : Nat
  wlmk : Nat
  videoCall : Nat
deriving DecidableEq, Repr

structure ListResult where
  bookings : List EnrichedBooking
  pagination : Pagination
  summary : Summary
deriving DecidableEq, Repr

/-- The `reduce` building the summary object: a running tally keyed by
status, `(acc[b.status] || 0) + 1` starting from `{}`. -/
def statusTally (l : List Booking) : BookingStatus → Nat :=
  l.foldl (fun acc b st => if st = b.status then acc st + 1 else acc st) (fun _ => 0)

/-- `new Map(rows.map(r => [r.id, r])).get(i)`: on duplicate keys a JS `Map`
keeps the last entry, hence `getLast?` of the rows with that id. -/
def jsMapGet (l : List Booking) (i : Nat) : Option Booking :=
  (l.filter (fun b => decide (b.id = i))).getLast?

/-- The whole filtered set, sorted (the controller sorts before slicing). -/
def sortedFiltered (s : Store) (u : AuthUser) (q : ListQuery) : List Booking :=
  sortBookings q.hasCollectionDate (s.bookings.filter (wherePred u q))

/-- `sortedBookingIds.slice(skip, skip + pageSize)`. -/
def paginatedIds (s : Store) (u : AuthUser) (q : ListQuery) : List Nat :=
  ((((sortedFiltered s u q).map (fun b => b.id)).drop ((q.page - 1) * q.limit)).take
    q.limit)

/-- The page re-fetch: `findMany({ where: { id: { in: paginatedIds } } })`
(which guarantees no particular order). -/
def refetchedRows (s : Store) (u : AuthUser) (q : ListQuery) : List Booking :=
  s.bookings.filter (fun b => (paginatedIds s u q).contains b.id)

/-- The final page rows: the re-fetched rows re-imposed into the sorted id
order via the id map, dropping ids the map misses (`filter(Boolean)`). -/
def pageRows (s : Store) (u : AuthUser) (q : ListQuery) : List Booking :=
  (paginatedIds s u q).filterMap (fun i => jsMapGet (refetchedRows s u q) i)

/-- The successful response body.  The separate `count` query and the two
full-set `findMany` queries over the same `where` clause coincide on a single
store snapshot; `Math.ceil(total / limit)` is `(total + limit - 1) / limit`
in natural division (the parsed `limit` is never 0: `parseInt(x) || 20`). -/
def assemble (s : Store) (u : AuthUser) (q : ListQuery) : ListResult :=
  { bookings := (pageRows s u q).map (enrich s)
    pagination :=
      { total := (s.bookings.filter (wherePred u q)).length
        page := q.page
        limit := q.limit
        totalPages :=
          ((s.bookings.filter (wherePred u q)).length + q.limit - 1) / q.limit }
    summary :=
      { total := (s.bookings.filter (wherePred u q)).length
        confirmed := statusTally (s.bookings.filter (wherePred u q)) .CONFIRMED
        booked := statusTally (s.bookings.filter (wherePred u q)) .BOOKED
        tbc := statusTally (s.bookings.filter (wherePred u q)) .TBC
        cancelled := statusTally (s.bookings.filter (wherePred u q)) .CANCELLED
        noAnswer := statusTally (s.bookings.filter (wherePred u q)) .NO_ANSWER
        wlmk := statusTally (s.bookings.filter (wherePred u q)) .WLMK
        videoCall := statusTally (s.bookings.filter (wherePred u q)) .VIDEO_CALL } }

/-- `getBookings`: 401 for an unauthenticated caller, otherwise the assembled
list response. -/
def getBookings (s : Store) (user : Option AuthUser) (q : ListQuery) :
    Except Nat ListResult :=
  match user with
  | none => .error 401
  | some u => .ok (assemble s u q)

/-- All stored booking ids are distinct (the database primary-key fact). -/
def uniqueIds (s : Store) : Prop := (s.bookings.map (fun b => b.id)).Nodup

/-- A booking whose date/time text fields are `null` or non-empty. -/
def normBooking (b : Booking) : Prop :=
  b.sessionDate ≠ some "" ∧ b.sessionTime ≠ some "" ∧
  b.specialRequestDate ≠ some "" ∧ b.specialRequestTime ≠ some "" ∧
  b.collectionDate ≠ some "" ∧ b.collectionTime ≠ some ""

instance (b : Booking) : Decidable (normBooking b) := by
  unfold normBooking
  infer_instance

/-- Stored date/time text fields are `null` or non-empty, as every write path
normalises `""` to `null` (`value || null`). -/
def normalizedDates (s : Store) : Prop := ∀ b ∈ s.bookings, normBooking b

/-- Modelled from the spec: the effective sort date of C3's claim,
`collectionDate` on the Sales tab, else `specialRequestDate ?? sessionDate`. -/
def specEffDate (hasCol : Bool) (b : Booking) : Option String :=
  if hasCol then b.collectionDate else b.specialRequestDate.or b.sessionDate

/-- Modelled from the spec: the effective sort time of C3's claim. -/
def specEffTime (hasCol : Bool) (b : Booking) : Option String :=
  if hasCol then b.collectionTime else b.specialRequestTime.or b.sessionTime

/-- Modelled from the spec: C3's ordering on rows — a null effective date
sorts after every non-null one, dates compare lexicographically, then (under
equal non-null dates) a null time sorts after a non-null one and times
compare lexicographically. -/
def specLe (hasCol : Bool) (a b : Booking) : Bool :=
  match specEffDate hasCol a, specEffDate hasCol b with
  | none, none => true
  | none, some _ => false
  | some _, none => true
  | some da, some db =>
    decide (da.data < db.data) ||
      (decide (da = db) &&
        (match specEffTime hasCol a, specEffTime hasCol b with
         | none, none => true
         | none, some _ => false
         | some _, none => true
         | some ta, some tb => decide (ta.data ≤ tb.data)))

/-- A truthy string (as its character list) in `WithTop`, `⊤` for a falsy
value: the order in which the comparator ranks a single date or time value
(falsy last). -/
def optKey (x : Option String) : WithTop (List Char) :=
  match jsOrNull x with
  | none => ⊤
  | some s => (s.data : WithTop (List Char))

/-- The date component of the comparator's effective key. -/
def keyD (hasCol : Bool) (b : Booking) : WithTop (List Char) :=
  optKey (sortDate hasCol b)

/-- The time component: only consulted under equal truthy dates, constant `⊤`
when the date is falsy, `⊤` for a falsy time. -/
def keyT (hasCol : Bool) (b : Booking) : WithTop (List Char) :=
  if strTruthy (sortDate hasCol b) then optKey (sortTime hasCol b) else ⊤

/-- The comparator's effective key, in the lexicographic product order. -/
def bookingKey (hasCol : Bool) (b : Booking) :
    Lex (WithTop (List Char) × WithTop (List Char)) :=
  toLex (keyD hasCol b, keyT hasCol b)

instance (s : Store) : Decidable (uniqueIds s) := by
  unfold uniqueIds
  infer_instance

instance (s : Store) : Decidable (normalizedDates s) := by
  unfold normalizedDates
  infer_instance

/-! ### Example data used by concrete witnesses -/

/-- A booking with every field defaulted; examples override what they need. -/
def baseBooking : Booking :=
  { id := 0, customerName := "x", phoneNumber := "01234567890",
    emergencyPhoneNumber := none, photoshootType := "family",
    sessionDate := none, sessionTime := none,
    specialRequestDate := none, specialRequestTime := none,
    collectionDate := none, collectionTime := none,
    paymentMethod := "CASH", status := .BOOKED, notes := none,
    studioNotes := none, cancellationReason := none,
    locationId := none, salesPersonId := none, studioNumber := none }

/-- The booking being allocated in the allocator examples. -/
def exAllocB4 : Booking :=
  { baseBooking with
    id := 4, locationId := some 7, salesPersonId := some 5,
    sessionDate := some "2024-01-02", sessionTime := some "09:00" }

/-- A location whose allocated studio numbers are {1, 2, 4}, plus an
unallocated booking (id 4). -/
def exAllocStore : Store :=
  { bookings :=
      [ { baseBooking with
          id := 1, locationId := some 7, salesPersonId := some 5,
          status := .CONFIRMED, sessionDate := some "2024-01-01",
          sessionTime := some "09:00", studioNumber := some 1 },
        { baseBooking with
          id := 2, locationId := some 7, salesPersonId := some 5,
          status := .CONFIRMED, sessionDate := some "2024-01-01",
          sessionTime := some "10:00", studioNumber := some 2 },
        { baseBooking with
          id := 3, locationId := some 7, salesPersonId := some 5,
          status := .CONFIRMED, sessionDate := some "2024-01-01",
          sessionTime := some "11:00", studioNumber := some 4 },
        exAllocB4 ],
    locations := [{ id := 7, name := "Leeds", code := some "LS" }],
    users := [{ id := 5, name := "sp", email := none }] }

/-- A booking that already holds studio number 5 (C5's concrete example). -/
def exAllocatedB : Booking :=
  { baseBooking with
    id := 9, locationId := some 7, salesPersonId := some 5,
    status := .CONFIRMED, sessionDate := some "2024-01-01",
    sessionTime := some "09:00", studioNumber := some 5 }

/-- A booking with no location assigned. -/
def exNoLocB : Booking :=
  { baseBooking with
    id := 10, salesPersonId := some 5,
    sessionDate := some "2024-01-03", sessionTime := some "09:00" }

def exFailStore : Store :=
  { bookings := [exAllocatedB, exNoLocB],
    locations := [{ id := 7, name := "Leeds", code := some "LS" }],
    users := [{ id := 5, name := "sp", email := none }] }

/-! ### Booking creation, lookup and update -/

/-- JavaScript `String.prototype.toUpperCase()` (ASCII), structurally. -/
def toUpperStr (s : String) : String := ⟨s.data.map Char.toUpper⟩

/-- JavaScript `String.prototype.trim()`, structurally. -/
def trimStr (s : String) : String :=
  ⟨((s.data.dropWhile Char.isWhitespace).reverse.dropWhile Char.isWhitespace).reverse⟩

/-- The body of a create request (all values as sent; `locationId` already
resolved to an id and absent/empty modelled as `none`). -/
structure CreateReq where
  customerName : String
  phoneNumber : String
  emergencyPhoneNumber : Option String
  photoshootType : String
  sessionDate : Option String
  sessionTime : Option String
  specialRequestDate : Option String
  specialRequestTime : Option String
  paymentMethod : String
  locationId : Option Nat
  status : Option String
  notes : Option String
deriving DecidableEq, Repr

/-- The status whitelist of `createBooking` (it omits VIDEO_CALL). -/
def statusFromCreateList : String → Option BookingStatus
  | "BOOKED" => some .BOOKED
  | "CONFIRMED" => some .CONFIRMED
  | "TBC" => some .TBC
  | "CANCELLED" => some .CANCELLED
  | "NO_ANSWER" => some .NO_ANSWER
  | "WLMK" => some .WLMK
  | _ => none

/-- `status && [..].includes(status.toUpperCase()) ? status.toUpperCase()
: "BOOKED"`. -/
def createStatus (st : Option String) : BookingStatus :=
  match st with
  | none => .BOOKED
  | some sv =>
    if sv = "" then .BOOKED
    else
      match statusFromCreateList (toUpperStr sv) with
      | some v => v
      | none => .BOOKED

/-- Both members of a slot are truthy strings whose trims are non-blank. -/
def slotFieldOk (d t : Option String) : Bool :=
  strTruthy d && strTruthy t &&
    decide ((trimStr (d.getD "")).data ≠ []) &&
    decide ((trimStr (t.getD "")).data ≠ [])

/-- `hasRegularSession || hasSpecialRequest` of the create validation. -/
def slotProvided (r : CreateReq) : Bool :=
  slotFieldOk r.sessionDate r.sessionTime ||
    slotFieldOk r.specialRequestDate r.specialRequestTime

/-- `paymentMethod.toUpperCase()` with `"NOT-PAID"` mapped to `"NOT_PAID"`. -/
def normalizePayment (p : String) : String :=
  if toUpperStr p = "NOT-PAID" then "NOT_PAID" else toUpperStr p

/-- The row the `create` call stores: trimmed name, digits-only phones,
`""` date/time/notes normalised to `null`, the computed status, the caller
as sales person. -/
def createdBooking (uid nid : Nat) (r : CreateReq) : Booking :=
  { id := nid
    customerName := trimStr r.customerName
    phoneNumber := stripNonDigits r.phoneNumber
    emergencyPhoneNumber :=
      if strTruthy r.emergencyPhoneNumber then
        some (stripNonDigits (r.emergencyPhoneNumber.getD ""))
      else none
    photoshootType := r.photoshootType
    sessionDate := jsOrNull r.sessionDate
    sessionTime := jsOrNull r.sessionTime
    specialRequestDate := jsOrNull r.specialRequestDate
    specialRequestTime := jsOrNull r.specialRequestTime
    collectionDate := none
    collectionTime := none
    paymentMethod := normalizePayment r.paymentMethod
    status := createStatus r.status
    notes := jsOrNull r.notes
    studioNotes := none
    cancellationReason := none
    locationId := r.locationId
    salesPersonId := some uid
    studioNumber := none }

/-- `createBooking`: phone validation, optional emergency-phone validation,
slot validation for non-TBC statuses, then the `create` call appending the
new row (with `nid` the id the store mints).  Failures return 400 with the
store untouched. -/
def createBooking (s : Store) (uid : Nat) (nid : Nat) (r : CreateReq) :
    Except Nat Booking × Store :=
  if (stripNonDigits r.phoneNumber).length ≠ 11 then (.error 400, s)
  else if strTruthy r.emergencyPhoneNumber = true ∧
      (stripNonDigits (r.emergencyPhoneNumber.getD "")).length ≠ 11 then
    (.error 400, s)
  else if createStatus r.status ≠ .TBC ∧ slotProvided r = false then
    (.error 400, s)
  else
    (.ok (createdBooking uid nid r),
      { s with bookings := s.bookings ++ [createdBooking uid nid r] })

/-- `getBookingById`: 404 when missing; ADMIN, CUSTOMER_SERVICE, STUDIO_ROLE and
SALES may view any booking, others only their own; the row is enriched. -/
def getBookingById (s : Store) (u : AuthUser) (bid : Nat) :
    Except Nat EnrichedBooking :=
  match s.bookings.find? (fun b => decide (b.id = bid)) with
  | none => .error 404
  | some b =>
    if u.role ≠ .ADMIN ∧ u.role ≠ .CUSTOMER_SERVICE ∧ u.role ≠ .STUDIO_ROLE ∧
        u.role ≠ .SALES ∧ b.salesPersonId ≠ some u.id then .error 403
    else .ok (enrich s b)

/-- The body of an update request.  The outer `Option` is presence in the
request (`undefined` when `none`); the inner value is the sent value with
JavaScript `null` as `none`.  `status` is modelled already upper-cased as an
enum value (`if (status)` skips a falsy status). -/
structure UpdateReq where
  customerName : Option String
  phoneNumber : Option String
  emergencyPhoneNumber : Option (Option String)
  photoshootType : Option String
  sessionDate : Option (Option String)
  sessionTime : Option (Option String)
  specialRequestDate : Option (Option String)
  specialRequestTime : Option (Option String)
  paymentMethod : Option String
  status : Option BookingStatus
  notes : Option (Option String)
  studioNotes : Option (Option String)
  cancellationReason : Option (Option String)
  locationId : Option (Option Nat)
  collectionDate : Option (Option String)
  collectionTime : Option (Option String)
deriving DecidableEq, Repr

/-- The `updateData` object of `updateBooking`, applied to the stored row:
truthy-guarded fields update only when sent truthy; `!== undefined`-guarded
fields update whenever present, normalising falsy values to `null`. -/
def applyUpdate (b : Booking) (r : UpdateReq) : Booking :=
  { b with
    customerName :=
      match r.customerName with
      | some s => if s ≠ "" then trimStr s else b.customerName
      | none => b.customerName
    phoneNumber :=
      match r.phoneNumber with
      | some s => if s ≠ "" then stripNonDigits s else b.phoneNumber
      | none => b.phoneNumber
    emergencyPhoneNumber :=
      match r.emergencyPhoneNumber with
      | some v => if strTruthy v then some (stripNonDigits (v.getD "")) else none
      | none => b.emergencyPhoneNumber
    photoshootType :=
      match r.photoshootType with
      | some s => if s ≠ "" then s else b.photoshootType
      | none => b.photoshootType
    sessionDate :=
      match r.sessionDate with
      | some v => jsOrNull v
      | none => b.sessionDate
    sessionTime :=
      match r.sessionTime with
      | some v => jsOrNull v
      | none => b.sessionTime
    specialRequestDate :=
      match r.specialRequestDate with
      | some v => jsOrNull v
      | none => b.specialRequestDate
    specialRequestTime :=
      match r.specialRequestTime with
      | some v => jsOrNull v
      | none => b.specialRequestTime
    paymentMethod :=
      match r.paymentMethod with
      | some s => if s ≠ "" then normalizePayment s else b.paymentMethod
      | none => b.paymentMethod
    status :=
      match r.status with
      | some st => st
      | none => b.status
    notes :=
      match r.notes with
      | some v => jsOrNull v
      | none => b.notes
    studioNotes :=
      match r.studioNotes with
      | some v => jsOrNull v
      | none => b.studioNotes
    cancellationReason :=
      match r.cancellationReason with
      | some v => jsOrNull v
      | none => b.cancellationReason
    locationId :=
      match r.locationId with
      | some v => v
      | none => b.locationId
    collectionDate :=
      match r.collectionDate with
      | some v => jsOrNull v
      | none => b.collectionDate
    collectionTime :=
      match r.collectionTime with
      | some v => jsOrNull v
      | none => b.collectionTime }

/-- The `/^\\d{4}-\\d{2}-\\d{2}$/` regex of the update validation. -/
def isDateFormatStr (s : String) : Bool :=
  match s.data with
  | [y1, y2, y3, y4, s1, m1, m2, s2, d1, d2] =>
    y1.isDigit && y2.isDigit && y3.isDigit && y4.isDigit &&
      (s1 == '-') && m1.isDigit && m2.isDigit && (s2 == '-') &&
      d1.isDigit && d2.isDigit
  | _ => false

/-- The `/^\\d{2}:\\d{2}$/` regex of the update validation. -/
def isTimeFormatStr (s : String) : Bool :=
  match s.data with
  | [h1, h2, c, m1, m2] =>
    h1.isDigit && h2.isDigit && (c == ':') && m1.isDigit && m2.isDigit
  | _ => false

/-- An `.optional().matches(re)` rule on a nullable field: express-validator
skips only `undefined`; a present `null` is coerced to `""` and fails the
format regex, a present string must match it. -/
def optFormatOk (fmt : String → Bool) : Option (Option String) → Bool
  | none => true
  | some none => false
  | some (some s) => fmt s

/-- `updateBookingValidation` (booking.routes.js): each rule is
`.optional()`, so it constrains only fields present in the request —
customerName non-blank after trim, phone customs (skipped for falsy values,
otherwise exactly 11 digits), photoshootType/paymentMethod/status whitelists
(the status list omits VIDEO_CALL), the four date/time format rules, string
checks for notes/studioNotes, and a uuid check for locationId (a present
`null` fails the string/uuid checks). collectionDate, collectionTime and
cancellationReason have no rules. -/
def validateUpdate (r : UpdateReq) : Bool :=
  (match r.customerName with
   | none => true
   | some s => decide ((trimStr s).data ≠ [])) &&
  (match r.phoneNumber with
   | none => true
   | some v => decide (v = "") || decide ((stripNonDigits v).length = 11)) &&
  (match r.emergencyPhoneNumber with
   | none => true
   | some v =>
     !(strTruthy v && decide ((trimStr (v.getD "")).data ≠ [])) ||
       decide ((stripNonDigits (v.getD "")).length = 11)) &&
  (match r.photoshootType with
   | none => true
   | some s =>
     decide (s = "children") || decide (s = "family") || decide (s = "couple") ||
       decide (s = "maternity")) &&
  optFormatOk isDateFormatStr r.sessionDate &&
  optFormatOk isTimeFormatStr r.sessionTime &&
  optFormatOk isDateFormatStr r.specialRequestDate &&
  optFormatOk isTimeFormatStr r.specialRequestTime &&
  (match r.paymentMethod with
   | none => true
   | some s => decide (s = "cash") || decide (s = "card") || decide (s = "not-paid")) &&
  (match r.status with
   | none => true
   | some st => decide (st ≠ .VIDEO_CALL)) &&
  (match r.notes with
   | none => true
   | some v => v.isSome) &&
  (match r.studioNotes with
   | none => true
   | some v => v.isSome) &&
  (match r.locationId with
   | none => true
   | some v => v.isSome)

/-- `updateBooking`: the route's `updateBookingValidation` first (the
controller returns its first error via `validationResult` before anything
else), then existence check, permission check, the controller's own phone
re-checks, then a single `update` with `updateData`.  No slot or
status-vs-date re-validation happens anywhere in this chain: present fields
are only checked for format in isolation. -/
def updateBooking (s : Store) (u : AuthUser) (id : Nat) (r : UpdateReq) :
    Except Nat Booking × Store :=
  if validateUpdate r = false then (.error 400, s)
  else
  match s.bookings.find? (fun b => decide (b.id = id)) with
  | none => (.error 404, s)
  | some existing =>
    if u.role ≠ .ADMIN ∧ u.role ≠ .CUSTOMER_SERVICE ∧ u.role ≠ .STUDIO_ROLE ∧
        u.role ≠ .SALES ∧ existing.salesPersonId ≠ some u.id then (.error 403, s)
    else if (match r.phoneNumber with
             | some p => decide (p ≠ "") && decide ((stripNonDigits p).length ≠ 11)
             | none => false) = true then (.error 400, s)
    else if (match r.emergencyPhoneNumber with
             | some v => strTruthy v &&
                 decide ((stripNonDigits (v.getD "")).length ≠ 11)
             | none => false) = true then (.error 400, s)
    else
      (.ok (applyUpdate existing r),
        { s with
            bookings := s.bookings.map (fun b2 =>
              if b2.id = id then applyUpdate b2 r else b2) })

/-- Modelled from the spec: the slot invariant of C8 — a non-TBC booking has
a complete session slot or a complete special-request slot, both members
present as non-empty strings. -/
def nonEmptyStr : Option String → Bool
  | none => false
  | some s => decide (s ≠ "")

def slotInvariant (b : Booking) : Bool :=
  decide (b.status = .TBC) ||
    (nonEmptyStr b.sessionDate && nonEmptyStr b.sessionTime) ||
    (nonEmptyStr b.specialRequestDate && nonEmptyStr b.specialRequestTime)

def exCS : AuthUser := { id := 99, role := .CUSTOMER_SERVICE }

def exSP : AuthUser := { id := 5, role := .SALES_PERSON }

def baseQuery : ListQuery :=
  { locationId := none, status := none, salesPersonId := none,
    includeAllSalesPersons := false, hasCollectionDate := false,
    page := 1, limit := 20 }

/-- Five filtered rows with ascending session dates (C2's example). -/
def exListStore : Store :=
  { bookings :=
      [ { baseBooking with
          id := 1, salesPersonId := some 5, sessionDate := some "2024-01-01",
          sessionTime := some "09:00" },
        { baseBooking with
          id := 2, salesPersonId := some 5, sessionDate := some "2024-01-02",
          sessionTime := some "09:00" },
        { baseBooking with
          id := 3, salesPersonId := some 5, sessionDate := some "2024-01-03",
          sessionTime := some "09:00" },
        { baseBooking with
          id := 4, salesPersonId := some 5, sessionDate := some "2024-01-04",
          sessionTime := some "09:00" },
        { baseBooking with
          id := 5, salesPersonId := some 5, sessionDate := some "2024-01-05",
          sessionTime := some "09:00" } ],
    locations := [], users := [] }

def exQPage2 : ListQuery := { baseQuery with page := 2, limit := 2 }

/-- The three bookings of C3's example: A(2024-01-02, 09:00),
B(2024-01-02, 08:00), C(null date). -/
def exABCStore : Store :=
  { bookings :=
      [ { baseBooking with
          id := 1, salesPersonId := some 5, sessionDate := some "2024-01-02",
          sessionTime := some "09:00" },
        { baseBooking with
          id := 2, salesPersonId := some 5, sessionDate := some "2024-01-02",
          sessionTime := some "08:00" },
        { baseBooking with
          id := 3, salesPersonId := some 5, status := .TBC } ],
    locations := [], users := [] }

/-- Seven BOOKED rows (C6's example). -/
def ex7Store : Store :=
  { bookings :=
      [ { baseBooking with id := 1, sessionDate := some "2024-01-01", sessionTime := some "09:00" },
        { baseBooking with id := 2, sessionDate := some "2024-01-01", sessionTime := some "10:00" },
        { baseBooking with id := 3, sessionDate := some "2024-01-01", sessionTime := some "11:00" },
        { baseBooking with id := 4, sessionDate := some "2024-01-02", sessionTime := some "09:00" },
        { baseBooking with id := 5, sessionDate := some "2024-01-02", sessionTime := some "10:00" },
        { baseBooking with id := 6, sessionDate := some "2024-01-03", sessionTime := some "09:00" },
        { baseBooking with id := 7, sessionDate := some "2024-01-03", sessionTime := some "10:00" },
        { baseBooking with
          id := 8, status := .CONFIRMED, sessionDate := some "2024-01-04",
          sessionTime := some "09:00", studioNumber := some 1 } ],
    locations := [], users := [] }

def exQLimit2 : ListQuery := { baseQuery with limit := 2 }

/-- Own booking of the SALES_PERSON caller (id 5) and a foreign one (C7). -/
def exOwnB : Booking :=
  { baseBooking with
    id := 1, salesPersonId := some 5, sessionDate := some "2024-01-01",
    sessionTime := some "09:00" }

def exOtherB : Booking :=
  { baseBooking with
    id := 2, salesPersonId := some 6, sessionDate := some "2024-01-01",
    sessionTime := some "08:00" }

def exTwoSPStore : Store :=
  { bookings := [exOwnB, exOtherB], locations := [], users := [] }

def exOwnOnlyStore : Store :=
  { bookings := [exOwnB], locations := [], users := [] }

def exAdmin : AuthUser := { id := 1, role := .ADMIN }

def exEmptyStore : Store := { bookings := [], locations := [], users := [] }

/-- A TBC booking with no date/time slot at all (C8's starting point: the
slot invariant allows this while the status is TBC). -/
def exC8TbcB : Booking :=
  { baseBooking with id := 1, salesPersonId := some 5, status := .TBC }

def exC8TbcStore : Store :=
  { bookings := [exC8TbcB], locations := [], users := [] }

/-- An update request whose whole body is `{status: "BOOKED"}`: every
`.optional()` rule of `updateBookingValidation` is skipped except the status
whitelist, which BOOKED passes. -/
def exC8StatusReq : UpdateReq :=
  { customerName := none, phoneNumber := none, emergencyPhoneNumber := none,
    photoshootType := none, sessionDate := none, sessionTime := none,
    specialRequestDate := none, specialRequestTime := none,
    paymentMethod := none, status := some .BOOKED, notes := none,
    studioNotes := none, cancellationReason := none, locationId := none,
    collectionDate := none, collectionTime := none }

/-- A dateless TBC booking with a location and no studio number yet, ready
for allocation. -/
def exC8AllocB : Booking :=
  { baseBooking with
    id := 2, salesPersonId := some 5, status := .TBC, locationId := some 7 }

def exC8AllocStore : Store :=
  { bookings := [exC8AllocB],
    locations := [{ id := 7, name := "Leeds", code := some "LS" }],
    users := [] }

/-- C9's create request with phone "0712-345 6789". -/
def exPhoneReq : CreateReq :=
  { customerName := " Jane ", phoneNumber := "0712-345 6789",
    emergencyPhoneNumber := none, photoshootType := "family",
    sessionDate := some "2024-01-02", sessionTime := some "09:00",
    specialRequestDate := none, specialRequestTime := none,
    paymentMethod := "cash", locationId := none, status := none, notes := none }

/-- A create request with a valid phone but no slot and non-TBC status. -/
def exNoSlotReq : CreateReq :=
  { customerName := "Jane", phoneNumber := "07123456789",
    emergencyPhoneNumber := none, photoshootType := "family",
    sessionDate := none, sessionTime := none,
    specialRequestDate := none, specialRequestTime := none,
    paymentMethod := "cash", locationId := none, status := none, notes := none }

/-! ### Gap-scan lemmas -/

theorem gapScanAux_spec (l : List Nat) (k : Nat)
    (hs : l.Pairwise (· < ·)) (hk : ∀ x ∈ l, k ≤ x) :
    gapScanAux l k ∉ l ∧ k ≤ gapScanAux l k ∧
      ∀ m, k ≤ m → m ∉ l → gapScanAux l k ≤ m := by
  induction l generalizing k with
  | nil =>
    refine ⟨by simp, le_refl k, ?_⟩
    intro m hm _
    simpa [gapScanAux] using hm
  | cons n rest ih =>
    rcases List.pairwise_cons.mp hs with ⟨hlt, hrest⟩
    by_cases hne : n = k
    · subst hne
      have hnext : ∀ x ∈ rest, n + 1 ≤ x := fun x hx => hlt x hx
      obtain ⟨hnot, hge, hmin⟩ := ih (n + 1) hrest hnext
      have hgap : gapScanAux (n :: rest) n = gapScanAux rest (n + 1) := by
        simp [gapScanAux]
      refine ⟨?_, ?_, ?_⟩
      · rw [hgap]
        intro hmem
        rcases List.mem_cons.mp hmem with h | h
        · omega
        · exact hnot h
      · rw [hgap]; omega
      · intro m hm hmnot
        rw [hgap]
        have hmne : m ≠ n := fun h => hmnot (h ▸ List.mem_cons_self n rest)
        have : n + 1 ≤ m := by omega
        exact hmin m this (fun h => hmnot (List.mem_cons_of_mem n h))
    · have hgap : gapScanAux (n :: rest) k = k := by
        simp [gapScanAux, hne]
      refine ⟨?_, by rw [hgap], ?_⟩
      · rw [hgap]
        intro hmem
        rcases List.mem_cons.mp hmem with h | h
        · exact hne h.symm
        · have h1 := hk n (List.mem_cons_self n rest)
          have h2 := hlt k h
          omega
      · intro m hm _
        rw [hgap]; exact hm

theorem locStudioNumbers_perm (s : Store) (lid : Nat) :
    (locStudioNumbers s lid).Perm (locStudioNumbersRaw s lid) :=
  List.perm_insertionSort _ _

theorem locStudioNumbers_sorted_le (s : Store) (lid : Nat) :
    (locStudioNumbers s lid).Pairwise (· ≤ ·) :=
  List.sorted_insertionSort (fun a b => a ≤ b) (locStudioNumbersRaw s lid)

theorem locStudioNumbers_sorted_lt (s : Store) (lid : Nat)
    (hnd : (locStudioNumbersRaw s lid).Nodup) :
    (locStudioNumbers s lid).Pairwise (· < ·) := by
  have hnd2 : (locStudioNumbers s lid).Nodup :=
    (locStudioNumbers_perm s lid).nodup_iff.mpr hnd
  have hle := locStudioNumbers_sorted_le s lid
  have := hle.and hnd2
  exact this.imp (fun ⟨h1, h2⟩ => lt_of_le_of_ne h1 h2)

/-- Membership in the per-location studio-number list is exactly "some booking
at the location already holds this number". -/
theorem mem_locStudioNumbersRaw {s : Store} {lid n : Nat} :
    n ∈ locStudioNumbersRaw s lid ↔
      ∃ b ∈ s.bookings, b.locationId = some lid ∧ b.studioNumber = some n := by
  constructor
  · intro h
    rcases List.mem_filterMap.mp h with ⟨b, hb, hsn⟩
    rcases List.mem_filter.mp hb with ⟨hmem, hpred⟩
    simp only [Bool.and_eq_true, decide_eq_true_eq] at hpred
    exact ⟨b, hmem, hpred.1, hsn⟩
  · rintro ⟨b, hmem, hloc, hsn⟩
    refine List.mem_filterMap.mpr ⟨b, List.mem_filter.mpr ⟨hmem, ?_⟩, hsn⟩
    simp [hloc, hsn]

/-- A conflicting booking found by the defensive re-query contributes its own
studio number to the per-location list, so the list the fallback indexes into
is never empty: the `NaN` case of the JavaScript fallback is dead code. -/
theorem conflictCheck_numbers_ne_nil {s : Store} {lid n id : Nat} {b2 : Booking}
    (h : conflictCheck s lid n id = some b2) :
    locStudioNumbers s lid ≠ [] := by
  have hmem := List.mem_of_find?_eq_some h
  have hpred := List.find?_some h
  simp only [Bool.and_eq_true, decide_eq_true_eq] at hpred
  have hn : n ∈ locStudioNumbersRaw s lid :=
    mem_locStudioNumbersRaw.mpr ⟨b2, hmem, hpred.1.1, hpred.1.2⟩
  have : n ∈ locStudioNumbers s lid := (locStudioNumbers_perm s lid).mem_iff.mpr hn
  exact List.ne_nil_of_mem this

/-- With distinct, positive studio numbers at the location the gap-scan
candidate is unused there, so the defensive re-query finds nothing. -/
theorem conflictCheck_gapScan_none {s : Store} {lid : Nat} (id : Nat)
    (hnd : (locStudioNumbersRaw s lid).Nodup)
    (hpos : ∀ x ∈ locStudioNumbersRaw s lid, 1 ≤ x) :
    conflictCheck s lid (gapScanAux (locStudioNumbers s lid) 1) id = none := by
  cases h : conflictCheck s lid (gapScanAux (locStudioNumbers s lid) 1) id with
  | none => rfl
  | some b2 =>
    exfalso
    have hmem := List.mem_of_find?_eq_some h
    have hpred := List.find?_some h
    simp only [Bool.and_eq_true, decide_eq_true_eq] at hpred
    have hin : gapScanAux (locStudioNumbers s lid) 1 ∈ locStudioNumbersRaw s lid :=
      mem_locStudioNumbersRaw.mpr ⟨b2, hmem, hpred.1.1, hpred.1.2⟩
    have hsorted := locStudioNumbers_sorted_lt s lid hnd
    have hpos2 : ∀ x ∈ locStudioNumbers s lid, 1 ≤ x := fun x hx =>
      hpos x ((locStudioNumbers_perm s lid).mem_iff.mp hx)
    have hspec := gapScanAux_spec (locStudioNumbers s lid) 1 hsorted hpos2
    exact hspec.1 ((locStudioNumbers_perm s lid).mem_iff.mpr hin)

theorem allocNumber_eq_gapScan {s : Store} {lid : Nat} (id : Nat)
    (hnd : (locStudioNumbersRaw s lid).Nodup)
    (hpos : ∀ x ∈ locStudioNumbersRaw s lid, 1 ≤ x) :
    allocNumber s lid id = gapScanAux (locStudioNumbers s lid) 1 := by
  unfold allocNumber
  rw [conflictCheck_gapScan_none id hnd hpos]

/-- Under the allocation preconditions the controller reaches the update. -/
theorem allocate_success_eq {s : Store} {id : Nat} {b : Booking} {lid : Nat}
    {loc : Location}
    (hb : s.bookings.find? (fun b2 => decide (b2.id = id)) = some b)
    (hloc : b.locationId = some lid)
    (hsn : b.studioNumber = none)
    (hlocEx : s.locations.find? (fun l => decide (l.id = lid)) = some loc) :
    allocateStudioNumber s id =
      (.ok (allocNumber s lid id), applyAllocUpdate s id (allocNumber s lid id)) := by
  simp only [allocateStudioNumber, hb, hloc, hsn, hlocEx, Option.isSome_none,
    Bool.false_eq_true, if_false]

/-- C1: for every booking satisfying the allocation preconditions, with the
location's existing studio numbers pairwise distinct and positive (the data
model invariant: `studioNumber` is a positive integer unique per location),
`allocateStudioNumber` returns exactly the gap-scan walk's result on the
ascending number list, and that value is the smallest positive integer not
already used as a `studioNumber` at that location. -/
theorem allocate_assigns_smallest_gap
    (s : Store) (id : Nat) (b : Booking) (lid : Nat) (loc : Location)
    (hb : s.bookings.find? (fun b2 => decide (b2.id = id)) = some b)
    (hloc : b.locationId = some lid)
    (hsn : b.studioNumber = none)
    (hlocEx : s.locations.find? (fun l => decide (l.id = lid)) = some loc)
    (hnd : (locStudioNumbersRaw s lid).Nodup)
    (hpos : ∀ x ∈ locStudioNumbersRaw s lid, 1 ≤ x) :
    (allocateStudioNumber s id).1 = .ok (gapScanAux (locStudioNumbers s lid) 1) ∧
    1 ≤ gapScanAux (locStudioNumbers s lid) 1 ∧
    (∀ b2 ∈ s.bookings, b2.locationId = some lid →
      b2.studioNumber ≠ some (gapScanAux (locStudioNumbers s lid) 1)) ∧
    (∀ m, 1 ≤ m →
      (∀ b2 ∈ s.bookings, b2.locationId = some lid → b2.studioNumber ≠ some m) →
      gapScanAux (locStudioNumbers s lid) 1 ≤ m) := by
  have hsorted := locStudioNumbers_sorted_lt s lid hnd
  have hpos2 : ∀ x ∈ locStudioNumbers s lid, 1 ≤ x := fun x hx =>
    hpos x ((locStudioNumbers_perm s lid).mem_iff.mp hx)
  have hspec := gapScanAux_spec (locStudioNumbers s lid) 1 hsorted hpos2
  refine ⟨?_, hspec.2.1, ?_, ?_⟩
  · rw [allocate_success_eq hb hloc hsn hlocEx,
      allocNumber_eq_gapScan id hnd hpos]
  · intro b2 hmem hbl hbn
    exact hspec.1 ((locStudioNumbers_perm s lid).mem_iff.mpr
      (mem_locStudioNumbersRaw.mpr ⟨b2, hmem, hbl, hbn⟩))
  · intro m hm hunused
    refine hspec.2.2 m hm ?_
    intro hmm
    rcases mem_locStudioNumbersRaw.mp ((locStudioNumbers_perm s lid).mem_iff.mp hmm)
      with ⟨b2, hmem, hbl, hbn⟩
    exact hunused b2 hmem hbl hbn

/-- C1 witness: with existing numbers {1,2,4} allocation assigns 3, and with
{1,2,3} the gap-scan walk yields 4 (count + 1). -/
theorem allocate_assigns_smallest_gap_witness :
    ((allocateStudioNumber exAllocStore 4).1 =
        .ok (gapScanAux (locStudioNumbers exAllocStore 7) 1) ∧
      gapScanAux (locStudioNumbers exAllocStore 7) 1 = 3) ∧
    gapScanAux (List.insertionSort (fun a b => a ≤ b) [1, 2, 3]) 1 = 4 := by
  refine ⟨⟨?_, by decide⟩, by decide⟩
  exact (allocate_assigns_smallest_gap exAllocStore 4 exAllocB4 7
    { id := 7, name := "Leeds", code := some "LS" }
    (by decide) (by decide) (by decide) (by decide) (by decide) (by decide)).1

/-- C5: the allocator fails with 404 when the booking or its location is
missing, with 400 when the booking has no location or already has a studio
number, and in every failure case returns with the store unchanged (the
controller responds before its single `update` call). -/
theorem allocate_failure_cases (s : Store) (id : Nat) :
    (s.bookings.find? (fun b2 => decide (b2.id = id)) = none →
      allocateStudioNumber s id = (.error .bookingNotFound, s)) ∧
    (∀ b, s.bookings.find? (fun b2 => decide (b2.id = id)) = some b →
      b.locationId = none →
      allocateStudioNumber s id = (.error .noLocation, s)) ∧
    (∀ b, s.bookings.find? (fun b2 => decide (b2.id = id)) = some b →
      b.studioNumber.isSome →
      (∀ lid, b.locationId = some lid →
        allocateStudioNumber s id = (.error .alreadyAllocated, s))) ∧
    (∀ b lid, s.bookings.find? (fun b2 => decide (b2.id = id)) = some b →
      b.locationId = some lid → b.studioNumber = none →
      s.locations.find? (fun l => decide (l.id = lid)) = none →
      allocateStudioNumber s id = (.error .locationNotFound, s)) ∧
    (AllocError.statusCode .bookingNotFound = 404 ∧
      AllocError.statusCode .noLocation = 400 ∧
      AllocError.statusCode .alreadyAllocated = 400 ∧
      AllocError.statusCode .locationNotFound = 404) := by
  refine ⟨?_, ?_, ?_, ?_, rfl, rfl, rfl, rfl⟩
  · intro h
    simp [allocateStudioNumber, h]
  · intro b hb hl
    simp [allocateStudioNumber, hb, hl]
  · intro b hb hsn lid hl
    simp [allocateStudioNumber, hb, hl, hsn]
  · intro b lid hb hl hsn hloc
    simp [allocateStudioNumber, hb, hl, hsn, hloc]

/-- C5 witness: allocating a booking that already has studio number 5 fails
with 400 and mutates nothing; allocating one with no location fails with 400. -/
theorem allocate_failure_cases_witness :
    allocateStudioNumber exFailStore 9 = (.error .alreadyAllocated, exFailStore) ∧
    AllocError.statusCode .alreadyAllocated = 400 ∧
    allocateStudioNumber exFailStore 10 = (.error .noLocation, exFailStore) ∧
    AllocError.statusCode .noLocation = 400 := by
  refine ⟨?_, by decide, ?_, by decide⟩
  · exact (allocate_failure_cases exFailStore 9).2.2.1 exAllocatedB (by decide)
      (by decide) 7 (by decide)
  · exact (allocate_failure_cases exFailStore 10).2.1 exNoLocB (by decide) (by decide)

/-- C4: every successful allocation returns a store in which exactly the one
chosen booking has been rewritten, receiving the computed studio number and
status CONFIRMED in the same update; every other booking, and the location
and user tables, are untouched. -/
theorem allocate_single_update (s : Store) (id n : Nat) (s2 : Store)
    (h : allocateStudioNumber s id = (.ok n, s2)) :
    s2.bookings = s.bookings.map (fun b2 =>
      if b2.id = id then { b2 with studioNumber := some n, status := .CONFIRMED }
      else b2) ∧
    s2.locations = s.locations ∧ s2.users = s.users := by
  unfold allocateStudioNumber at h
  split at h
  · simp at h
  · split at h
    · simp at h
    · split at h
      · simp at h
      · split at h
        · simp at h
        · rw [Prod.ext_iff] at h
          simp only [Except.ok.injEq] at h
          obtain ⟨h1, h2⟩ := h
          subst h1
          subst h2
          simp [applyAllocUpdate]

/-- C4 witness: the {1,2,4} example allocation writes number 3 and CONFIRMED
to booking 4 in the one update. -/
theorem allocate_single_update_witness :
    (applyAllocUpdate exAllocStore 4 3).bookings = exAllocStore.bookings.map
      (fun b2 =>
        if b2.id = 4 then { b2 with studioNumber := some 3, status := .CONFIRMED }
        else b2) :=
  (allocate_single_update exAllocStore 4 3 (applyAllocUpdate exAllocStore 4 3)
    (by rfl)).1

/-- C10: in a single sequential execution over a store whose studio numbers at
the location are pairwise distinct (and positive, per the data model), the
defensive re-query finds no booking holding the gap-scan candidate, so the
`max + 1` fallback branch is not taken and the written number is exactly the
gap-scan result; moreover whenever the re-query does find a conflict (in any
store), the number list the fallback indexes into is non-empty, so the
last-element access is never evaluated on an empty array. -/
theorem allocate_fallback_unreachable
    (s : Store) (id : Nat) (b : Booking) (lid : Nat) (loc : Location)
    (hb : s.bookings.find? (fun b2 => decide (b2.id = id)) = some b)
    (hloc : b.locationId = some lid)
    (hsn : b.studioNumber = none)
    (hlocEx : s.locations.find? (fun l => decide (l.id = lid)) = some loc)
    (hnd : (locStudioNumbersRaw s lid).Nodup)
    (hpos : ∀ x ∈ locStudioNumbersRaw s lid, 1 ≤ x) :
    conflictCheck s lid (gapScanAux (locStudioNumbers s lid) 1) id = none ∧
    allocNumber s lid id = gapScanAux (locStudioNumbers s lid) 1 ∧
    (allocateStudioNumber s id).1 = .ok (gapScanAux (locStudioNumbers s lid) 1) ∧
    (∀ n b2, conflictCheck s lid n id = some b2 → locStudioNumbers s lid ≠ []) := by
  refine ⟨conflictCheck_gapScan_none id hnd hpos, allocNumber_eq_gapScan id hnd hpos,
    ?_, fun n b2 h => conflictCheck_numbers_ne_nil h⟩
  rw [allocate_success_eq hb hloc hsn hlocEx, allocNumber_eq_gapScan id hnd hpos]

/-- C10 witness: in the {1,2,4} store the re-query finds nothing and the
written number is the gap-scan result 3. -/
theorem allocate_fallback_unreachable_witness :
    conflictCheck exAllocStore 7 (gapScanAux (locStudioNumbers exAllocStore 7) 1) 4
        = none ∧
      allocNumber exAllocStore 7 4 = gapScanAux (locStudioNumbers exAllocStore 7) 1 ∧
      gapScanAux (locStudioNumbers exAllocStore 7) 1 = 3 := by
  have h := allocate_fallback_unreachable exAllocStore 4 exAllocB4 7
    { id := 7, name := "Leeds", code := some "LS" }
    (by decide) (by decide) (by decide) (by decide) (by decide) (by decide)
  exact ⟨h.1, h.2.1, by decide⟩

/-! ### Comparator bridge: `bookingLe` is the lexicographic key order -/

theorem strTruthy_eq_true_iff (o : Option String) :
    strTruthy o = true ↔ ∃ s, o = some s ∧ s ≠ "" := by
  cases o with
  | none => simp [strTruthy]
  | some s => simp [strTruthy]

theorem strTruthy_eq_false_iff (o : Option String) :
    strTruthy o = false ↔ o = none ∨ o = some "" := by
  cases o with
  | none => simp [strTruthy]
  | some s => simp [strTruthy]

theorem string_data_eq {a b : String} (h : a.data = b.data) : a = b := by
  cases a
  cases b
  exact congrArg String.mk h

theorem compareStr_ne_gt_iff {a b : String} :
    compareStr a b ≠ .gt ↔ a.data ≤ b.data := by
  unfold compareStr
  rcases lt_trichotomy a.data b.data with h | h | h
  · simp [h, le_of_lt h, not_lt_of_lt h]
  · simp [h]
  · simp [not_lt_of_lt h, h, not_le_of_lt h]

theorem optKey_of_truthy {o : Option String} {s : String}
    (ho : o = some s) (hs : s ≠ "") :
    optKey o = (s.data : WithTop (List Char)) := by
  subst ho
  simp [optKey, jsOrNull, strTruthy, hs]

theorem optKey_of_falsy {o : Option String} (h : strTruthy o = false) :
    optKey o = ⊤ := by
  simp [optKey, jsOrNull, h]

theorem timeKey_le_iff (tA tB : Option String) :
    ((if !strTruthy tA && !strTruthy tB then Ordering.eq
      else if !strTruthy tA then Ordering.gt
      else if !strTruthy tB then Ordering.lt
      else compareStr (tA.getD "") (tB.getD "")) ≠ Ordering.gt) ↔
      optKey tA ≤ optKey tB := by
  by_cases hA : strTruthy tA
  · by_cases hB : strTruthy tB
    · obtain ⟨sa, hta, hsa⟩ := (strTruthy_eq_true_iff tA).mp hA
      obtain ⟨sb, htb, hsb⟩ := (strTruthy_eq_true_iff tB).mp hB
      rw [optKey_of_truthy hta hsa, optKey_of_truthy htb hsb]
      subst hta; subst htb
      simp only [hA, hB, Bool.not_true, Bool.and_self, Bool.false_and,
        if_false, Option.getD_some]
      rw [WithTop.coe_le_coe]
      exact compareStr_ne_gt_iff
    · obtain ⟨sa, hta, hsa⟩ := (strTruthy_eq_true_iff tA).mp hA
      rw [optKey_of_truthy hta hsa, optKey_of_falsy (by simpa using hB)]
      simp [hA, hB, le_top]
  · rw [optKey_of_falsy (by simpa using hA)]
    by_cases hB : strTruthy tB
    · obtain ⟨sb, htb, hsb⟩ := (strTruthy_eq_true_iff tB).mp hB
      rw [optKey_of_truthy htb hsb]
      simp [hA, hB, top_le_iff]
    · rw [optKey_of_falsy (by simpa using hB)]
      simp [hA, hB]

theorem cmpKey_ne_gt_iff (dA tA dB tB : Option String) :
    cmpKey dA tA dB tB ≠ .gt ↔
      (optKey dA < optKey dB ∨
        (optKey dA = optKey dB ∧
          ((if strTruthy dA then optKey tA else ⊤) ≤
            (if strTruthy dB then optKey tB else ⊤)))) := by
  by_cases hA : strTruthy dA
  · by_cases hB : strTruthy dB
    · obtain ⟨sa, hda, hsa⟩ := (strTruthy_eq_true_iff dA).mp hA
      obtain ⟨sb, hdb, hsb⟩ := (strTruthy_eq_true_iff dB).mp hB
      rw [optKey_of_truthy hda hsa, optKey_of_truthy hdb hsb, if_pos hA, if_pos hB]
      by_cases hd : sa = sb
      · subst hd
        have : cmpKey dA tA dB tB =
            (if !strTruthy tA && !strTruthy tB then Ordering.eq
             else if !strTruthy tA then Ordering.gt
             else if !strTruthy tB then Ordering.lt
             else compareStr (tA.getD "") (tB.getD "")) := by
          subst hda
          subst hdb
          simp [cmpKey, hA, hB]
        rw [this, timeKey_le_iff]
        simp
      · have : cmpKey dA tA dB tB = compareStr sa sb := by
          subst hda
          subst hdb
          simp [cmpKey, hA, hB, hd]
        rw [this]
        rw [compareStr_ne_gt_iff]
        have hd2 : sa.data ≠ sb.data := fun hh => hd (string_data_eq hh)
        constructor
        · intro hle
          exact Or.inl (WithTop.coe_lt_coe.mpr (lt_of_le_of_ne hle hd2))
        · rintro (hlt | ⟨heq, _⟩)
          · exact le_of_lt (WithTop.coe_lt_coe.mp hlt)
          · exact absurd (WithTop.coe_inj.mp heq) hd2
    · obtain ⟨sa, hda, hsa⟩ := (strTruthy_eq_true_iff dA).mp hA
      rw [optKey_of_truthy hda hsa, optKey_of_falsy (by simpa using hB),
        if_pos hA, if_neg hB]
      have : cmpKey dA tA dB tB = .lt := by
        subst hda
        simp [cmpKey, hA, hB]
      rw [this]
      simp [WithTop.coe_lt_top]
  · rw [optKey_of_falsy (by simpa using hA), if_neg hA]
    by_cases hB : strTruthy dB
    · obtain ⟨sb, hdb, hsb⟩ := (strTruthy_eq_true_iff dB).mp hB
      rw [optKey_of_truthy hdb hsb]
      have : cmpKey dA tA dB tB = .gt := by
        subst hdb
        simp [cmpKey, hA, hB]
      rw [this]
      simp [not_top_lt, WithTop.top_ne_coe]
    · rw [optKey_of_falsy (by simpa using hB), if_neg hB]
      have : cmpKey dA tA dB tB = .eq := by
        simp [cmpKey, hA, hB]
      rw [this]
      simp

theorem bookingLe_iff_key (hasCol : Bool) (a b : Booking) :
    bookingLe hasCol a b ↔ bookingKey hasCol a ≤ bookingKey hasCol b := by
  unfold bookingLe bookingCmp bookingKey keyD keyT
  rw [Prod.Lex.le_iff]
  exact cmpKey_ne_gt_iff _ _ _ _

theorem bookingLe_trans (hasCol : Bool) (a b c : Booking)
    (hab : bookingLe hasCol a b) (hbc : bookingLe hasCol b c) :
    bookingLe hasCol a c :=
  (bookingLe_iff_key hasCol a c).mpr
    (le_trans ((bookingLe_iff_key hasCol a b).mp hab)
      ((bookingLe_iff_key hasCol b c).mp hbc))

theorem bookingLe_total (hasCol : Bool) (a b : Booking) :
    bookingLe hasCol a b ∨ bookingLe hasCol b a :=
  (le_total (bookingKey hasCol a) (bookingKey hasCol b)).imp
    (bookingLe_iff_key hasCol a b).mpr (bookingLe_iff_key hasCol b a).mpr

theorem sortBookings_sorted (hasCol : Bool) (l : List Booking) :
    (sortBookings hasCol l).Pairwise (bookingLe hasCol) := by
  haveI : IsTotal Booking (bookingLe hasCol) := ⟨bookingLe_total hasCol⟩
  haveI : IsTrans Booking (bookingLe hasCol) := ⟨bookingLe_trans hasCol⟩
  exact List.sorted_insertionSort _ l

theorem sortBookings_perm (hasCol : Bool) (l : List Booking) :
    (sortBookings hasCol l).Perm l :=
  List.perm_insertionSort _ _

/-! ### Page assembly lemmas -/

theorem filter_id_eq_singleton {l : List Booking}
    (h : (l.map (fun b => b.id)).Nodup) {b : Booking} (hb : b ∈ l) :
    l.filter (fun x => decide (x.id = b.id)) = [b] := by
  induction l with
  | nil => cases hb
  | cons a t ih =>
    simp only [List.map_cons, List.nodup_cons] at h
    rcases List.mem_cons.mp hb with rfl | hbt
    · have ht : t.filter (fun x => decide (x.id = b.id)) = [] := by
        rw [List.filter_eq_nil_iff]
        intro x hx
        simp only [decide_eq_true_eq]
        intro hxe
        exact h.1 (hxe ▸ List.mem_map_of_mem (fun b => b.id) hx)
      simp [List.filter_cons, ht]
    · have hne : ¬(a.id = b.id) := by
        intro hae
        exact h.1 (hae ▸ List.mem_map_of_mem (fun b => b.id) hbt)
      simp only [List.filter_cons, decide_eq_true_eq, hne, if_false]
      exact ih h.2 hbt

theorem filterMap_mem_eq_self {l : List Booking} {f : Booking → Option Booking}
    (h : ∀ a ∈ l, f a = some a) : l.filterMap f = l := by
  induction l with
  | nil => rfl
  | cons a t ih =>
    rw [List.filterMap_cons, h a (List.mem_cons_self a t)]
    rw [ih (fun x hx => h x (List.mem_cons_of_mem a hx))]

/-- The current page of rows equals the slice of the fully sorted filtered
set: the re-fetch by id set plus the id-map re-imposition reconstruct the
sorted slice exactly (given globally distinct booking ids). -/
theorem pageRows_eq (s : Store) (u : AuthUser) (q : ListQuery)
    (h : uniqueIds s) :
    pageRows s u q =
      (((sortedFiltered s u q).drop ((q.page - 1) * q.limit)).take q.limit) := by
  have hpids : paginatedIds s u q =
      ((((sortedFiltered s u q).drop ((q.page - 1) * q.limit)).take q.limit).map
        (fun b => b.id)) := by
    unfold paginatedIds
    rw [List.map_take, List.map_drop]
  have hsubL : ∀ b ∈ (((sortedFiltered s u q).drop ((q.page - 1) * q.limit)).take
      q.limit), b ∈ s.bookings := by
    intro b hbL
    have h1 : b ∈ (sortedFiltered s u q).drop ((q.page - 1) * q.limit) :=
      (List.take_sublist _ _).mem hbL
    have h2 : b ∈ sortedFiltered s u q := (List.drop_sublist _ _).mem h1
    have h3 : b ∈ s.bookings.filter (wherePred u q) :=
      (sortBookings_perm _ _).mem_iff.mp h2
    exact (List.mem_filter.mp h3).1
  have hget : ∀ b ∈ (((sortedFiltered s u q).drop ((q.page - 1) * q.limit)).take
      q.limit), jsMapGet (refetchedRows s u q) b.id = some b := by
    intro b hbL
    have hbs : b ∈ s.bookings := hsubL b hbL
    have hcont : (paginatedIds s u q).contains b.id = true := by
      rw [hpids]
      exact List.elem_iff.mpr (List.mem_map_of_mem (fun b => b.id) hbL)
    unfold jsMapGet refetchedRows
    rw [List.filter_filter]
    have hcongr : s.bookings.filter
        (fun x => decide (x.id = b.id) && (paginatedIds s u q).contains x.id) =
        s.bookings.filter (fun x => decide (x.id = b.id)) := by
      apply List.filter_congr
      intro x hx
      by_cases hxe : x.id = b.id
      · have hmem : b.id ∈ paginatedIds s u q := List.elem_iff.mp hcont
        simp [hxe, hmem]
      · simp [hxe]
    rw [hcongr, filter_id_eq_singleton h hbs]
    rfl
  unfold pageRows
  rw [hpids, List.filterMap_map]
  exact filterMap_mem_eq_self (fun b hbL => hget b hbL)

/-- The tally function counts exactly the occurrences of each status. -/
theorem statusTally_eq_countP (l : List Booking) (st : BookingStatus) :
    statusTally l st = l.countP (fun b => decide (b.status = st)) := by
  unfold statusTally
  suffices h : ∀ acc : BookingStatus → Nat,
      (l.foldl (fun acc b st => if st = b.status then acc st + 1 else acc st) acc) st =
        acc st + l.countP (fun b => decide (b.status = st)) by
    simpa using h (fun _ => 0)
  induction l with
  | nil => intro acc; simp
  | cons a t ih =>
    intro acc
    rw [List.foldl_cons, ih, List.countP_cons]
    by_cases he : st = a.status
    · simp [he, Nat.add_assoc, Nat.add_comm 1]
    · have : ¬(a.status = st) := fun hh => he hh.symm
      simp [he, this]

theorem assemble_rows_eq (s : Store) (u : AuthUser) (q : ListQuery)
    (h : uniqueIds s) :
    (assemble s u q).bookings.map (fun r => r.booking) =
      (((sortedFiltered s u q).drop ((q.page - 1) * q.limit)).take q.limit) := by
  show (((pageRows s u q).map (enrich s)).map (fun r => r.booking)) = _
  rw [List.map_map]
  have hid : ((fun r : EnrichedBooking => r.booking) ∘ enrich s) = id :=
    funext fun b => rfl
  rw [hid, List.map_id]
  exact pageRows_eq s u q h

/-- C2: the list endpoint sorts the entire filtered set and slices afterwards:
the returned page is rows `[(page-1)*limit, page*limit)` of the fully sorted
sequence (re-imposed after the unordered page re-fetch), `pagination.total`
counts the whole filtered set and `totalPages` is the ceiling of
`total / limit`. -/
theorem getBookings_sort_then_paginate (s : Store) (u : AuthUser) (q : ListQuery)
    (h : uniqueIds s) :
    getBookings s (some u) q = .ok (assemble s u q) ∧
    (assemble s u q).bookings.map (fun r => r.booking) =
      (((sortedFiltered s u q).drop ((q.page - 1) * q.limit)).take q.limit) ∧
    (assemble s u q).pagination.total = (s.bookings.filter (wherePred u q)).length ∧
    (assemble s u q).pagination.totalPages =
      ((s.bookings.filter (wherePred u q)).length + q.limit - 1) / q.limit :=
  ⟨rfl, assemble_rows_eq s u q h, rfl, rfl⟩

/-- C2 witness: page 2 of size 2 over 5 sorted rows returns rows 3 and 4 of
the sorted sequence and `totalPages = 3`. -/
theorem getBookings_sort_then_paginate_witness :
    uniqueIds exListStore ∧
    ((assemble exListStore exCS exQPage2).bookings.map (fun r => r.booking) =
      (((sortedFiltered exListStore exCS exQPage2).drop
        ((exQPage2.page - 1) * exQPage2.limit)).take exQPage2.limit)) ∧
    (assemble exListStore exCS exQPage2).bookings.map (fun r => r.booking.id) =
      [3, 4] ∧
    (assemble exListStore exCS exQPage2).pagination.totalPages = 3 := by
  refine ⟨by decide, ?_, by decide, by decide⟩
  exact (getBookings_sort_then_paginate exListStore exCS exQPage2 (by decide)).2.1

/-- C6: the summary is computed over the entire filtered set, independently of
`page` and `limit`: it is unchanged under any page/limit choice, equals the
per-status occurrence counts of the filtered set, and its total is the
filtered count; concretely, 7 BOOKED rows with page size 2 still report
`summary.booked = 7`. -/
theorem getBookings_summary_page_independent (s : Store) (u : AuthUser)
    (q : ListQuery) (p1 l1 p2 l2 : Nat) :
    ((assemble s u { q with page := p1, limit := l1 }).summary =
      (assemble s u { q with page := p2, limit := l2 }).summary) ∧
    (assemble s u q).summary.total = (s.bookings.filter (wherePred u q)).length ∧
    (assemble s u q).summary.confirmed =
      (s.bookings.filter (wherePred u q)).countP
        (fun b => decide (b.status = .CONFIRMED)) ∧
    (assemble s u q).summary.booked =
      (s.bookings.filter (wherePred u q)).countP
        (fun b => decide (b.status = .BOOKED)) ∧
    (assemble s u q).summary.tbc =
      (s.bookings.filter (wherePred u q)).countP
        (fun b => decide (b.status = .TBC)) ∧
    (assemble s u q).summary.cancelled =
      (s.bookings.filter (wherePred u q)).countP
        (fun b => decide (b.status = .CANCELLED)) ∧
    (assemble s u q).summary.noAnswer =
      (s.bookings.filter (wherePred u q)).countP
        (fun b => decide (b.status = .NO_ANSWER)) ∧
    (assemble s u q).summary.wlmk =
      (s.bookings.filter (wherePred u q)).countP
        (fun b => decide (b.status = .WLMK)) ∧
    (assemble s u q).summary.videoCall =
      (s.bookings.filter (wherePred u q)).countP
        (fun b => decide (b.status = .VIDEO_CALL)) ∧
    (assemble ex7Store exCS exQLimit2).summary.booked = 7 :=
  ⟨rfl, rfl, statusTally_eq_countP _ _, statusTally_eq_countP _ _,
    statusTally_eq_countP _ _, statusTally_eq_countP _ _, statusTally_eq_countP _ _,
    statusTally_eq_countP _ _, statusTally_eq_countP _ _, by decide⟩

/-! ### The spec-side ordering of C3 agrees with the comparator -/

theorem sortDate_eq_specEffDate (hasCol : Bool) (b : Booking)
    (hb : normBooking b) : sortDate hasCol b = specEffDate hasCol b := by
  obtain ⟨h1, h2, h3, h4, h5, h6⟩ := hb
  cases hasCol with
  | true => simp [sortDate, specEffDate]
  | false =>
    simp only [sortDate, specEffDate, if_false, Bool.false_eq_true]
    cases hsr : b.specialRequestDate with
    | none => simp [jsOr, strTruthy]
    | some s =>
      have hs : s ≠ "" := fun he => h3 (by rw [hsr, he])
      simp [jsOr, strTruthy, hs]

theorem sortTime_eq_specEffTime (hasCol : Bool) (b : Booking)
    (hb : normBooking b) : sortTime hasCol b = specEffTime hasCol b := by
  obtain ⟨h1, h2, h3, h4, h5, h6⟩ := hb
  cases hasCol with
  | true => simp [sortTime, specEffTime]
  | false =>
    simp only [sortTime, specEffTime, if_false, Bool.false_eq_true]
    cases hsr : b.specialRequestTime with
    | none => simp [jsOr, strTruthy]
    | some s =>
      have hs : s ≠ "" := fun he => h4 (by rw [hsr, he])
      simp [jsOr, strTruthy, hs]

theorem specEffDate_ne_empty (hasCol : Bool) (b : Booking)
    (hb : normBooking b) : specEffDate hasCol b ≠ some "" := by
  obtain ⟨h1, h2, h3, h4, h5, h6⟩ := hb
  cases hasCol with
  | true => simpa [specEffDate] using h5
  | false =>
    simp only [specEffDate, if_false, Bool.false_eq_true]
    cases hsr : b.specialRequestDate with
    | none => simpa using h1
    | some s =>
      have hs : some s ≠ some "" := hsr ▸ h3
      simpa using hs

theorem specEffTime_ne_empty (hasCol : Bool) (b : Booking)
    (hb : normBooking b) : specEffTime hasCol b ≠ some "" := by
  obtain ⟨h1, h2, h3, h4, h5, h6⟩ := hb
  cases hasCol with
  | true => simpa [specEffTime] using h6
  | false =>
    simp only [specEffTime, if_false, Bool.false_eq_true]
    cases hsr : b.specialRequestTime with
    | none => simpa using h2
    | some s =>
      have hs : some s ≠ some "" := hsr ▸ h4
      simpa using hs

theorem optKey_none : optKey none = ⊤ := rfl

/-- On normalised bookings the claim's ordering (`??`-fallback key, null date
last, lexicographic date then time with null time last) is exactly the
comparator's key order. -/
theorem specLe_iff_key (hasCol : Bool) (a b : Booking)
    (ha : normBooking a) (hb : normBooking b) :
    (specLe hasCol a b = true) ↔ bookingKey hasCol a ≤ bookingKey hasCol b := by
  unfold bookingKey keyD keyT
  rw [Prod.Lex.le_iff]
  rw [sortDate_eq_specEffDate hasCol a ha, sortDate_eq_specEffDate hasCol b hb,
    sortTime_eq_specEffTime hasCol a ha, sortTime_eq_specEffTime hasCol b hb]
  cases hda : specEffDate hasCol a with
  | none =>
    cases hdb : specEffDate hasCol b with
    | none => simp [specLe, hda, hdb, optKey_none, strTruthy]
    | some db =>
      have hdbne : db ≠ "" := fun he => specEffDate_ne_empty hasCol b hb (he ▸ hdb)
      rw [optKey_none, optKey_of_truthy rfl hdbne]
      simp [specLe, hda, hdb, strTruthy, not_top_lt, WithTop.top_ne_coe]
  | some da =>
    have hdane : da ≠ "" := fun he => specEffDate_ne_empty hasCol a ha (he ▸ hda)
    cases hdb : specEffDate hasCol b with
    | none =>
      rw [optKey_of_truthy rfl hdane, optKey_none]
      simp [specLe, hda, hdb, WithTop.coe_lt_top]
    | some db =>
      have hdbne : db ≠ "" := fun he => specEffDate_ne_empty hasCol b hb (he ▸ hdb)
      rw [optKey_of_truthy rfl hdane, optKey_of_truthy rfl hdbne]
      have hta : strTruthy (some da) = true := by simp [strTruthy, hdane]
      have htb : strTruthy (some db) = true := by simp [strTruthy, hdbne]
      rw [if_pos hta, if_pos htb]
      simp only [specLe, hda, hdb, Bool.or_eq_true, Bool.and_eq_true,
        decide_eq_true_eq, WithTop.coe_lt_coe, WithTop.coe_inj]
      constructor
      · rintro (hlt | ⟨heq, htime⟩)
        · exact Or.inl hlt
        · refine Or.inr ⟨congrArg String.data heq, ?_⟩
          cases hts : specEffTime hasCol a with
          | none =>
            cases htsb : specEffTime hasCol b with
            | none => simp [optKey_none]
            | some tb => rw [hts, htsb] at htime; simp at htime
          | some ta =>
            have htane : ta ≠ "" := fun he => specEffTime_ne_empty hasCol a ha (he ▸ hts)
            cases htsb : specEffTime hasCol b with
            | none => rw [optKey_of_truthy rfl htane, optKey_none]; exact le_top
            | some tb =>
              have htbne : tb ≠ "" := fun he =>
                specEffTime_ne_empty hasCol b hb (he ▸ htsb)
              rw [optKey_of_truthy rfl htane, optKey_of_truthy rfl htbne]
              rw [hts, htsb] at htime
              simp only [decide_eq_true_eq] at htime
              exact WithTop.coe_le_coe.mpr htime
      · rintro (hlt | ⟨heq, htime⟩)
        · exact Or.inl hlt
        · refine Or.inr ⟨string_data_eq heq, ?_⟩
          cases hts : specEffTime hasCol a with
          | none =>
            cases htsb : specEffTime hasCol b with
            | none => simp
            | some tb =>
              have htbne : tb ≠ "" := fun he =>
                specEffTime_ne_empty hasCol b hb (he ▸ htsb)
              rw [hts, htsb, optKey_none, optKey_of_truthy rfl htbne] at htime
              exact absurd (top_le_iff.mp htime) WithTop.coe_ne_top
          | some ta =>
            cases htsb : specEffTime hasCol b with
            | none => simp
            | some tb =>
              have htane : ta ≠ "" := fun he =>
                specEffTime_ne_empty hasCol a ha (he ▸ hts)
              have htbne : tb ≠ "" := fun he =>
                specEffTime_ne_empty hasCol b hb (he ▸ htsb)
              rw [hts, htsb, optKey_of_truthy rfl htane,
                optKey_of_truthy rfl htbne] at htime
              simpa using WithTop.coe_le_coe.mp htime

theorem mem_slice_mem_bookings (s : Store) (u : AuthUser) (q : ListQuery)
    {b : Booking}
    (hb : b ∈ ((sortedFiltered s u q).drop ((q.page - 1) * q.limit)).take q.limit) :
    b ∈ s.bookings := by
  have h1 : b ∈ (sortedFiltered s u q).drop ((q.page - 1) * q.limit) :=
    (List.take_sublist _ _).mem hb
  have h2 : b ∈ sortedFiltered s u q := (List.drop_sublist _ _).mem h1
  have h3 : b ∈ s.bookings.filter (wherePred u q) :=
    (sortBookings_perm _ _).mem_iff.mp h2
  exact (List.mem_filter.mp h3).1

/-- C3: every returned page is sorted ascending by the effective key of the
claim — (collectionDate, collectionTime) under the `hasCollectionDate`
filter, otherwise (specialRequestDate ?? sessionDate,
specialRequestTime ?? sessionTime) — with a null effective date after every
non-null date, dates lexicographic, and (under equal non-null dates) a null
time after a non-null time.  Hypotheses: distinct ids and `""`-normalised
stored fields, both guaranteed by the write paths. -/
theorem getBookings_sorted_by_effective_key (s : Store) (u : AuthUser)
    (q : ListQuery) (hids : uniqueIds s) (hdates : normalizedDates s) :
    ((assemble s u q).bookings.map (fun r => r.booking)).Pairwise
      (fun a b => specLe q.hasCollectionDate a b = true) := by
  rw [assemble_rows_eq s u q hids]
  have hsorted : (sortedFiltered s u q).Pairwise (bookingLe q.hasCollectionDate) :=
    sortBookings_sorted q.hasCollectionDate (s.bookings.filter (wherePred u q))
  have hsub : (((sortedFiltered s u q).drop ((q.page - 1) * q.limit)).take
      q.limit).Sublist (sortedFiltered s u q) :=
    (List.take_sublist _ _).trans (List.drop_sublist _ _)
  have hpw := hsorted.sublist hsub
  refine List.Pairwise.imp_of_mem ?_ hpw
  intro a b hamem hbmem hr
  have hna : normBooking a := hdates a (mem_slice_mem_bookings s u q hamem)
  have hnb : normBooking b := hdates b (mem_slice_mem_bookings s u q hbmem)
  exact (specLe_iff_key q.hasCollectionDate a b hna hnb).mpr
    ((bookingLe_iff_key q.hasCollectionDate a b).mp hr)

/-- C3 witness: bookings A(2024-01-02 09:00), B(2024-01-02 08:00), C(null)
come back in order [B, A, C]. -/
theorem getBookings_sorted_by_effective_key_witness :
    uniqueIds exABCStore ∧ normalizedDates exABCStore ∧
    ((assemble exABCStore exCS baseQuery).bookings.map (fun r => r.booking)).Pairwise
      (fun a b => specLe baseQuery.hasCollectionDate a b = true) ∧
    (assemble exABCStore exCS baseQuery).bookings.map (fun r => r.booking.id) =
      [2, 1, 3] := by
  refine ⟨by decide, by decide, ?_, by decide⟩
  exact getBookings_sorted_by_effective_key exABCStore exCS baseQuery
    (by decide) (by decide)

theorem whereSalesFilter_salesperson (u : AuthUser) (q : ListQuery)
    (hrole : u.role = .SALES_PERSON)
    (hno : shouldIncludeAllSalesPersons q = false) :
    whereSalesFilter u q = some u.id := by
  simp [whereSalesFilter, hrole, hno]

theorem filter_wherePred_own_split (u : AuthUser) (q : ListQuery)
    (hrole : u.role = .SALES_PERSON)
    (hno : shouldIncludeAllSalesPersons q = false) (l : List Booking) :
    l.filter (wherePred u q) =
      (l.filter (fun b => decide (b.salesPersonId = some u.id))).filter
        (fun b =>
          (match q.locationId with
           | none => true
           | some lid => decide (b.locationId = some lid)) &&
          (match q.status with
           | none => true
           | some st => decide (b.status = st)) &&
          (!q.hasCollectionDate ||
            (b.collectionDate.isSome && b.collectionTime.isSome))) := by
  rw [List.filter_filter]
  apply List.filter_congr
  intro b hbmem
  simp only [wherePred, whereSalesFilter_salesperson u q hrole hno]
  cases hd : decide (b.salesPersonId = some u.id) <;>
    cases q.locationId <;> cases q.status <;>
      simp [Bool.and_comm, Bool.and_assoc, Bool.and_left_comm]

/-- C7: a SALES_PERSON caller without the include-all bypass sees only their
own rows — every returned row carries their own salesPersonId — and the
response is entirely insensitive to other sales persons' bookings: two stores
agreeing on the caller's own bookings (and on locations/users) yield
identical responses. -/
theorem salesperson_sees_only_own (s1 s2 : Store) (u : AuthUser) (q : ListQuery)
    (hrole : u.role = .SALES_PERSON)
    (hno : shouldIncludeAllSalesPersons q = false)
    (h1 : uniqueIds s1) (h2 : uniqueIds s2)
    (hown : s1.bookings.filter (fun b => decide (b.salesPersonId = some u.id)) =
      s2.bookings.filter (fun b => decide (b.salesPersonId = some u.id)))
    (hloc : s1.locations = s2.locations) (husers : s1.users = s2.users) :
    (∀ r ∈ (assemble s1 u q).bookings, r.booking.salesPersonId = some u.id) ∧
    getBookings s1 (some u) q = getBookings s2 (some u) q := by
  constructor
  · intro r hr
    have hr2 : r ∈ (pageRows s1 u q).map (enrich s1) := hr
    obtain ⟨b, hbmem, rfl⟩ := List.mem_map.mp hr2
    rw [pageRows_eq s1 u q h1] at hbmem
    have hb1 : b ∈ (sortedFiltered s1 u q).drop ((q.page - 1) * q.limit) :=
      (List.take_sublist _ _).mem hbmem
    have hb2 : b ∈ sortedFiltered s1 u q := (List.drop_sublist _ _).mem hb1
    have hb3 : b ∈ s1.bookings.filter (wherePred u q) :=
      (sortBookings_perm _ _).mem_iff.mp hb2
    have hw := (List.mem_filter.mp hb3).2
    simp only [wherePred, whereSalesFilter_salesperson u q hrole hno,
      Bool.and_eq_true, decide_eq_true_eq] at hw
    exact hw.1.1.1
  · have hfe : s1.bookings.filter (wherePred u q) =
        s2.bookings.filter (wherePred u q) := by
      rw [filter_wherePred_own_split u q hrole hno,
        filter_wherePred_own_split u q hrole hno, hown]
    have hsfe : sortedFiltered s1 u q = sortedFiltered s2 u q := by
      unfold sortedFiltered
      rw [hfe]
    have hrows : pageRows s1 u q = pageRows s2 u q := by
      rw [pageRows_eq s1 u q h1, pageRows_eq s2 u q h2, hsfe]
    have henrich : enrich s1 = enrich s2 := by
      funext b
      unfold enrich
      rw [hloc, husers]
    show Except.ok (assemble s1 u q) = Except.ok (assemble s2 u q)
    unfold assemble
    rw [hrows, hfe, henrich]

/-- C7 witness: with a foreign booking present or removed, the SALES_PERSON
caller gets the identical response, every row their own. -/
theorem salesperson_sees_only_own_witness :
    (∀ r ∈ (assemble exTwoSPStore exSP baseQuery).bookings,
      r.booking.salesPersonId = some exSP.id) ∧
    getBookings exTwoSPStore (some exSP) baseQuery =
      getBookings exOwnOnlyStore (some exSP) baseQuery :=
  salesperson_sees_only_own exTwoSPStore exOwnOnlyStore exSP baseQuery
    (by decide) (by decide) (by decide) (by decide) (by decide) (by decide) (by decide)

/-! ### Slot invariant (C8) and phone normalisation (C9) -/

theorem slotFieldOk_nonEmpty {d t : Option String} (h : slotFieldOk d t = true) :
    nonEmptyStr (jsOrNull d) = true ∧ nonEmptyStr (jsOrNull t) = true := by
  simp only [slotFieldOk, Bool.and_eq_true] at h
  obtain ⟨⟨⟨hd, ht⟩, _⟩, _⟩ := h
  constructor
  · rw [jsOrNull, if_pos hd]
    obtain ⟨sd, hsd, hne⟩ := (strTruthy_eq_true_iff d).mp hd
    subst hsd
    simp [nonEmptyStr, hne]
  · rw [jsOrNull, if_pos ht]
    obtain ⟨st, hst, hne⟩ := (strTruthy_eq_true_iff t).mp ht
    subst hst
    simp [nonEmptyStr, hne]

/-- C8 (amended, create side): every booking `createBooking` stores satisfies
the slot invariant, and a request with a non-TBC status and no complete slot
is rejected with 400 leaving the store unchanged. -/
theorem create_enforces_slot_invariant (s : Store) (uid nid : Nat)
    (r : CreateReq) :
    (∀ b s2, createBooking s uid nid r = (.ok b, s2) →
      slotInvariant b = true ∧ s2.bookings = s.bookings ++ [b]) ∧
    (createStatus r.status ≠ .TBC → slotProvided r = false →
      createBooking s uid nid r = (.error 400, s)) := by
  constructor
  · intro b s2 h
    unfold createBooking at h
    split_ifs at h with h1 h2 h3
    · exact absurd h (by simp)
    · exact absurd h (by simp)
    · exact absurd h (by simp)
    · rw [Prod.ext_iff] at h
      simp only [Except.ok.injEq] at h
      obtain ⟨hb, hs⟩ := h
      subst hb
      refine ⟨?_, by rw [← hs]⟩
      by_cases hT : createStatus r.status = .TBC
      · simp [slotInvariant, createdBooking, hT]
      · have hsp : slotProvided r = true := by
          cases hsp0 : slotProvided r with
          | true => rfl
          | false => exact absurd ⟨hT, hsp0⟩ h3
        unfold slotProvided at hsp
        simp only [Bool.or_eq_true] at hsp
        rcases hsp with hreg | hspec
        · obtain ⟨hd, ht2⟩ := slotFieldOk_nonEmpty hreg
          simp [slotInvariant, createdBooking, hd, ht2]
        · obtain ⟨hd, ht2⟩ := slotFieldOk_nonEmpty hspec
          simp [slotInvariant, createdBooking, hd, ht2]
  · intro hT hs
    unfold createBooking
    split_ifs with h1 h2 h3
    · rfl
    · rfl
    · rfl
    · exact absurd ⟨hT, hs⟩ h3

/-- C8 witness for the amended claim: a BOOKED create request without any
slot is rejected with 400 and creates nothing. -/
theorem create_enforces_slot_invariant_witness :
    (createStatus exNoSlotReq.status ≠ .TBC ∧ slotProvided exNoSlotReq = false) ∧
    createBooking exEmptyStore 5 1 exNoSlotReq = (.error 400, exEmptyStore) := by
  refine ⟨by decide, ?_⟩
  exact (create_enforces_slot_invariant exEmptyStore 5 1 exNoSlotReq).2
    (by decide) (by decide)

/-- C8 counterexample: the slot invariant is NOT preserved by every
booking-mutating operation, at inputs that pass the real request-validation
chain.  A dateless TBC booking satisfies the invariant; the update body
`{status: "BOOKED"}` passes `updateBookingValidation` (every rule is
`.optional()` and BOOKED is whitelisted), `updateBooking` applies it without
any slot re-validation, and the stored booking is then BOOKED with no slot.
Likewise `allocateStudioNumber` (whose route has no body validation at all)
turns a dateless TBC booking with a location into a CONFIRMED one with no
slot. -/
theorem slot_invariant_not_preserved :
    validateUpdate exC8StatusReq = true ∧
    exC8TbcStore.bookings.map slotInvariant = [true] ∧
    (updateBooking exC8TbcStore exAdmin 1 exC8StatusReq).1 =
      .ok (applyUpdate exC8TbcB exC8StatusReq) ∧
    (applyUpdate exC8TbcB exC8StatusReq).status = .BOOKED ∧
    (updateBooking exC8TbcStore exAdmin 1 exC8StatusReq).2.bookings.map
      slotInvariant = [false] ∧
    exC8AllocStore.bookings.map slotInvariant = [true] ∧
    (allocateStudioNumber exC8AllocStore 2).1 = .ok 1 ∧
    (allocateStudioNumber exC8AllocStore 2).2.bookings.map slotInvariant =
      [false] := by decide

/-- C9: `createBooking` rejects any phone not reducing to exactly 11 digits
(store untouched); a stored booking's phone is exactly the stripped digit
string declared 11 digits long, it reads back unchanged through
`getBookingById`, and creation preserves "every stored phone is 11 digits". -/
theorem phone_normalization_roundtrip (s : Store) (uid nid : Nat)
    (r : CreateReq) :
    ((stripNonDigits r.phoneNumber).length ≠ 11 →
      createBooking s uid nid r = (.error 400, s)) ∧
    (∀ b s2, createBooking s uid nid r = (.ok b, s2) →
      b.phoneNumber = stripNonDigits r.phoneNumber ∧
      b.phoneNumber.length = 11 ∧
      s2.bookings = s.bookings ++ [b] ∧
      ((∀ b0 ∈ s.bookings, b0.id ≠ nid) → ∀ u : AuthUser, u.id = uid →
        getBookingById s2 u nid = .ok (enrich s2 b) ∧
        (enrich s2 b).booking.phoneNumber = stripNonDigits r.phoneNumber)) ∧
    ((∀ b0 ∈ s.bookings, b0.phoneNumber.length = 11) →
      ∀ b0 ∈ (createBooking s uid nid r).2.bookings,
        b0.phoneNumber.length = 11) := by
  refine ⟨?_, ?_, ?_⟩
  · intro h
    unfold createBooking
    rw [if_pos h]
  · intro b s2 h
    unfold createBooking at h
    split_ifs at h with h1 h2 h3
    · exact absurd h (by simp)
    · exact absurd h (by simp)
    · exact absurd h (by simp)
    · rw [Prod.ext_iff] at h
      simp only [Except.ok.injEq] at h
      obtain ⟨hb, hs⟩ := h
      subst hb
      have hlen : (stripNonDigits r.phoneNumber).length = 11 := not_ne_iff.mp h1
      refine ⟨rfl, hlen, by rw [← hs], ?_⟩
      intro hfresh u hu
      have hfind : s2.bookings.find? (fun b2 => decide (b2.id = nid)) =
          some (createdBooking uid nid r) := by
        rw [← hs]
        show (s.bookings ++ [createdBooking uid nid r]).find?
          (fun b2 => decide (b2.id = nid)) = some (createdBooking uid nid r)
        rw [List.find?_append]
        have hnone : s.bookings.find? (fun b2 => decide (b2.id = nid)) = none :=
          List.find?_eq_none.mpr (fun x hx => by simpa using hfresh x hx)
        rw [hnone]
        simp [createdBooking]
      refine ⟨?_, rfl⟩
      unfold getBookingById
      rw [hfind]
      have hperm : ¬(u.role ≠ Role.ADMIN ∧ u.role ≠ Role.CUSTOMER_SERVICE ∧
          u.role ≠ Role.STUDIO_ROLE ∧ u.role ≠ Role.SALES ∧
          (createdBooking uid nid r).salesPersonId ≠ some u.id) := by
        intro hcond
        exact hcond.2.2.2.2 (by simp [createdBooking, hu])
      exact if_neg hperm
  · intro hall b0 hb0
    unfold createBooking at hb0
    split_ifs at hb0 with h1 h2 h3
    · exact hall b0 hb0
    · exact hall b0 hb0
    · exact hall b0 hb0
    · have : b0 ∈ s.bookings ++ [createdBooking uid nid r] := hb0
      rcases List.mem_append.mp this with hmem | hmem
      · exact hall b0 hmem
      · have : b0 = createdBooking uid nid r := by simpa using hmem
        subst this
        exact not_ne_iff.mp h1

/-- C9 witness: phone "0712-345 6789" is stored and read back as
"07123456789". -/
theorem phone_normalization_roundtrip_witness :
    stripNonDigits "0712-345 6789" = "07123456789" ∧
    createBooking exEmptyStore 5 1 exPhoneReq =
      (.ok (createdBooking 5 1 exPhoneReq),
        { exEmptyStore with bookings := [createdBooking 5 1 exPhoneReq] }) ∧
    (createdBooking 5 1 exPhoneReq).phoneNumber = "07123456789" ∧
    getBookingById { exEmptyStore with bookings := [createdBooking 5 1 exPhoneReq] }
        exSP 1 =
      .ok (enrich { exEmptyStore with bookings := [createdBooking 5 1 exPhoneReq] }
        (createdBooking 5 1 exPhoneReq)) := by
  refine ⟨by decide, by decide, by decide, ?_⟩
  have h := (phone_normalization_roundtrip exEmptyStore 5 1 exPhoneReq).2.1
    (createdBooking 5 1 exPhoneReq)
    { exEmptyStore with bookings := [createdBooking 5 1 exPhoneReq] }
    (by decide)
  exact (h.2.2.2 (by decide) exSP (by decide)).1
